import Mathlib

/-!
Verification of the sthlmconcerts batch ingestion engine.

The definitions below are a shallow embedding of the scrape pipeline in
`supabase/functions/scrape-concerts/index.ts` and of the earlier single-run
variant of the same edge function (suffix `V2`).  JavaScript strings are
modelled as `List Char`; `null`/`undefined`-able fields as `Option`; JS
truthiness of a string value (`null`, `undefined` and `""` are falsy) as
`truthy`.  Network effects (the scraping backend, the AI gateway, the
database) are modelled by explicit data: oracle scripts of responses and
function parameters standing for host-library behaviour (`Date` parsing,
artist-image lookup).
-/

namespace Sthlm

/-- JavaScript strings, modelled as lists of characters. -/
abbrev Str := List Char

/-- Coerce a Lean string literal into the model. -/
def str (s : String) : Str := s.data

/-- Model of JS `toLowerCase` on one character, restricted to the alphabet the
pipeline actually manipulates: ASCII letters plus the Swedish letters Å, Ä, Ö.
All other characters are left unchanged (they are filtered out by `normalize`
anyway). -/
def lowerChar (c : Char) : Char :=
  if 'A' ≤ c ∧ c ≤ 'Z' then Char.ofNat (c.toNat + 32)
  else if c = 'Å' then 'å'
  else if c = 'Ä' then 'ä'
  else if c = 'Ö' then 'ö'
  else c

/-- The character class `[a-zåäö0-9]` of the `normalize` regex. -/
def isKeyChar (c : Char) : Bool :=
  ('a' ≤ c && c ≤ 'z') || ('0' ≤ c && c ≤ '9') || c = 'å' || c = 'ä' || c = 'ö'

/-- Whitespace stripped by JS `String.prototype.trim` (restricted to the ASCII
whitespace occurring in the scraped data). -/
def isWs (c : Char) : Bool :=
  c = ' ' || c = '\t' || c = '\n' || c = '\r'

/-- JS `trim()`: drop whitespace from both ends. -/
def trimStr (s : Str) : Str :=
  ((s.dropWhile isWs).reverse.dropWhile isWs).reverse

/-- `s.split(re)[0]`: the prefix of `s` before the first separator char. -/
def takeUntil (sep : Char → Bool) (s : Str) : Str :=
  s.takeWhile (fun c => !sep c)

/-- Separators of the artist key regex `[:\-–—|]`. -/
def artistSep (c : Char) : Bool :=
  c = ':' || c = '-' || c = '–' || c = '—' || c = '|'

/-- Separators of the venue key regex `[,\-–—]`. -/
def venueSep (c : Char) : Bool :=
  c = ',' || c = '-' || c = '–' || c = '—'

/-- `const normalize = (s) => s.toLowerCase().replace(/[^a-zåäö0-9]/g, "")`. -/
def normalize (s : Str) : Str :=
  (s.map lowerChar).filter isKeyChar

/-- `const normalizeArtist = (s) => normalize(s.split(/[:\-–—|]/)[0].trim())`. -/
def normalizeArtist (s : Str) : Str :=
  normalize (trimStr (takeUntil artistSep s))

/-- `const normalizeVenueKey = (s) => normalize(s.split(/[,\-–—]/)[0].trim())`
(called `normalizeVenue` in the earlier pipeline variant, identical body). -/
def normalizeVenueKey (s : Str) : Str :=
  normalize (trimStr (takeUntil venueSep s))

/-- The `ScrapedConcert` record produced by the pipeline.  Optional JS fields
(`string | null | undefined`) are `Option Str`. -/
structure ScrapedConcert where
  artist : Str
  venue : Str
  date : Str
  ticket_url : Option Str
  ticket_sale_date : Option Str
  tickets_available : Bool
  image_url : Option Str
  event_type : Str
  source : Str
  source_url : Str
deriving DecidableEq, Repr

instance : Inhabited ScrapedConcert :=
  ⟨⟨[], [], [], none, none, false, none, [], [], []⟩⟩

/-- JS truthiness of a nullable string: `null`, `undefined` and `""` are
falsy, every other string is truthy. -/
def truthy : Option Str → Bool
  | none => false
  | some s => !s.isEmpty

/-- JS `a || b` on nullable strings. -/
def jsOr (a b : Option Str) : Option Str :=
  if truthy a then a else b

/-- JS `a || null` on nullable strings. -/
def jsOrNull (o : Option Str) : Option Str :=
  if truthy o then o else none

/-- JS `a || dflt` where the result must be a string. -/
def jsOrDflt (o : Option Str) (dflt : Str) : Str :=
  match o with
  | some s => if s.isEmpty then dflt else s
  | none => dflt

/-- The completeness score used by `deduplicateConcerts`:
`2×(ticket_url) + 1×(image_url) + 1×(tickets_available)` with JS truthiness. -/
def score (c : ScrapedConcert) : Nat :=
  (if truthy c.ticket_url then 2 else 0) +
    (if truthy c.image_url then 1 else 0) +
    (if c.tickets_available then 1 else 0)

/-- The natural deduplication key
`normalizeArtist(artist) + "|" + normalizeVenueKey(venue) + "|" + dateOnly(date)`.
`dOnly` stands for the host-library `dateOnly` helper
(`new Date(d).toISOString().split("T")[0]`, falling back to `d`); `Date`
parsing is runtime behaviour, so it enters the model as a parameter. -/
def concertKey (dOnly : Str → Str) (c : ScrapedConcert) : Str :=
  normalizeArtist c.artist ++ '|' :: normalizeVenueKey c.venue ++
    '|' :: dOnly c.date

-- A JS `Map` as an insertion-ordered association list -----------------------

/-- `Map.get`. -/
def getAssoc (k : Str) : List (Str × ScrapedConcert) → Option ScrapedConcert
  | [] => none
  | (k', v') :: rest => if k' = k then some v' else getAssoc k rest

/-- `Map.set`: updates an existing binding in place (JS `Map` keeps the
original insertion position), otherwise appends. -/
def setAssoc (k : Str) (v : ScrapedConcert) :
    List (Str × ScrapedConcert) → List (Str × ScrapedConcert)
  | [] => [(k, v)]
  | (k', v') :: rest =>
      if k' = k then (k, v) :: rest else (k', v') :: setAssoc k v rest

-- deduplicateConcerts (scrape-concerts/index.ts, lines 311-330) -------------

/-- One iteration of the `for (const c of concerts)` loop of
`deduplicateConcerts`: insert a fresh key, or merge with the existing entry,
keeping the higher completeness score and merging `image_url` (both branches)
and `ticket_url` (keep-existing branch) with JS `||`. -/
def dedupStep (dOnly : Str → Str) (seen : List (Str × ScrapedConcert))
    (c : ScrapedConcert) : List (Str × ScrapedConcert) :=
  match getAssoc (concertKey dOnly c) seen with
  | none => setAssoc (concertKey dOnly c) c seen
  | some existing =>
      if score existing < score c then
        setAssoc (concertKey dOnly c)
          { c with image_url := jsOr c.image_url existing.image_url } seen
      else
        setAssoc (concertKey dOnly c)
          { existing with
              image_url := jsOr existing.image_url c.image_url,
              ticket_url := jsOr existing.ticket_url c.ticket_url } seen

/-- `deduplicateConcerts`: fold the loop over the input order and return
`[...seen.values()]` (insertion order). -/
def deduplicateConcerts (dOnly : Str → Str) (concerts : List ScrapedConcert) :
    List ScrapedConcert :=
  (concerts.foldl (dedupStep dOnly) []).map Prod.snd

/-- Well-formedness of the `seen` map: keys are distinct and every stored
record computes back to its own key. -/
def WFseen (dOnly : Str → Str) (l : List (Str × ScrapedConcert)) : Prop :=
  (l.map Prod.fst).Nodup ∧ ∀ p ∈ l, concertKey dOnly p.2 = p.1

-- Deletion guard (index.ts handler, lines 389-413) ---------------------------

/-- A row of the `deleted_concerts` table. -/
structure DeletionRecord where
  artist : Str
  venue : Str
  date : Str
deriving DecidableEq, Repr

/-- The key the handler computes for a deletion record (same normalization as
the dedup key). -/
def deletionKey (dOnly : Str → Str) (d : DeletionRecord) : Str :=
  normalizeArtist d.artist ++ '|' :: normalizeVenueKey d.venue ++
    '|' :: dOnly d.date

/-- The `upsertBatch` helper of the `Deno.serve` handler: deduplicate, skip
candidates whose key is in `deletedKeys`, fill a missing image for non-comedy
events through the artist-image lookup (network behaviour, passed in as
`enrich`), and upsert the rest.  Returns the rows handed to the store. -/
def upsertRows (dOnly : Str → Str) (enrich : Str → Option Str)
    (deletedKeys : List Str) (concerts : List ScrapedConcert) :
    List ScrapedConcert :=
  (deduplicateConcerts dOnly concerts).filterMap (fun c =>
    if concertKey dOnly c ∈ deletedKeys then none
    else some { c with
      image_url :=
        if truthy c.image_url = false ∧ c.event_type ≠ str "comedy" then
          enrich c.artist
        else c.image_url })

-- Quality filters (index.ts, lines 115-172) ----------------------------------

/-- JS `hay.includes(needle)`: substring containment. -/
def containsSub (needle : Str) : Str → Bool
  | [] => needle.isEmpty
  | c :: t => needle.isPrefixOf (c :: t) || containsSub needle t

/-- The `VENUE_NORMALIZATION` alias table, in insertion order. -/
def VENUE_NORMALIZATION : List (Str × Str) :=
  [ (str "stora scen", str "Gröna Lund")
  , (str "stora scenen", str "Gröna Lund")
  , (str "lilla scenen", str "Gröna Lund")
  , (str "gröna lund stora scen", str "Gröna Lund")
  , (str "gröna lund lilla scen", str "Gröna Lund")
  , (str "friends arena", str "Strawberry Arena")
  , (str "tele2 arena", str "Strawberry Arena") ]

/-- The `for (const [key, normalized] of Object.entries(...))` loop:
first alias whose key occurs in the lowercased venue. -/
def findAlias (lower : Str) : List (Str × Str) → Option Str
  | [] => none
  | (k, v) :: rest => if containsSub k lower then some v else findAlias lower rest

/-- If the lowercase image of `s` ends with `suf`, return `s` with the last
`suf.length` characters removed. -/
def dropSuffixCI (s : Str) (suf : Str) : Option Str :=
  if suf.isSuffixOf (s.map lowerChar) then some (s.take (s.length - suf.length))
  else none

/-- One alternative of the `/,\s*(stockholm|sweden|sverige)$/i` replacement:
match `city` case-insensitively at the end, preceded by optional whitespace
and a comma, and return the part before the comma. -/
def stripCityOnce (s : Str) (city : Str) : Option Str :=
  match dropSuffixCI s city with
  | none => none
  | some rest =>
      match rest.reverse.dropWhile isWs with
      | ',' :: pre => some pre.reverse
      | _ => none

/-- `venue.replace(/,\s*(stockholm|sweden|sverige)$/i, "")`.  At most one
alternative can match (the three city names are not suffixes of each other),
so trying them in order is faithful. -/
def stripCitySuffix (s : Str) : Str :=
  match stripCityOnce s (str "stockholm") with
  | some pre => pre
  | none =>
      match stripCityOnce s (str "sweden") with
      | some pre => pre
      | none =>
          match stripCityOnce s (str "sverige") with
          | some pre => pre
          | none => s

/-- `normalizeVenueName`: alias-table lookup on the lowercased trimmed venue,
else strip a trailing city suffix and trim. -/
def normalizeVenueName (venue : Str) : Str :=
  match findAlias (trimStr (venue.map lowerChar)) VENUE_NORMALIZATION with
  | some n => n
  | none => trimStr (stripCitySuffix venue)

/-- The `STOCKHOLM_VENUE_KEYWORDS` allow-list. -/
def STOCKHOLM_VENUE_KEYWORDS : List Str :=
  [ str "stockholm", str "gröna lund", str "grona lund", str "cirkus"
  , str "globen", str "avicii arena", str "hovet", str "strawberry arena"
  , str "konserthuset", str "södra teatern", str "sodra teatern"
  , str "kulturhuset", str "annexet", str "debaser", str "berns", str "nalen"
  , str "münchenbryggeriet", str "munchenbryggeriet", str "filadelfia"
  , str "fållan", str "fallan", str "vasateatern", str "göta lejon"
  , str "gota lejon", str "chinateatern", str "rival", str "scandinavium"
  , str "ericsson globe", str "tele2", str "friends arena"
  , str "stockholm live", str "a]", str "kungsträdgården"
  , str "kungstradgarden", str "skansen", str "grönan", str "lilla scen"
  , str "stora scen", str "sjöhistoriska", str "nöjesteatern", str "hyvens"
  , str "slaktkyrkan", str "kraken", str "fryshuset", str "arenan"
  , str "trädgården", str "tradgarden", str "under bron", str "sthlm"
  , str "kolingsborg", str "skybar", str "fasching", str "stampen"
  , str "glen miller café", str "jazzclub", str "blå dörren"
  , str "kagelbanan" ]

/-- `isStockholmVenue`: some keyword occurs in the lowercased venue. -/
def isStockholmVenue (venue : Str) : Bool :=
  STOCKHOLM_VENUE_KEYWORDS.any (fun kw => containsSub kw (venue.map lowerChar))

def isAsciiAlpha (c : Char) : Bool :=
  ('a' ≤ c && c ≤ 'z') || ('A' ≤ c && c ≤ 'Z')

def isAsciiDigit (c : Char) : Bool :=
  '0' ≤ c && c ≤ '9'

/-- Characters allowed in a URL scheme after the first letter. -/
def schemeChar (c : Char) : Bool :=
  isAsciiAlpha c || isAsciiDigit c || c = '+' || c = '-' || c = '.'

def specialSchemes : List Str :=
  [str "http", str "https", str "ws", str "wss", str "ftp"]

/-- Modelled from the host runtime: success of the WHATWG `new URL(u)`
constructor on an absolute URL, restricted to the shapes occurring in this
data domain.  A URL parses iff it has a syntactically valid scheme followed by
`:`, and for the special network schemes a nonempty host after the optional
slashes. -/
def urlParseOk (u : Str) : Bool :=
  match u.dropWhile (fun c => c ≠ ':') with
  | [] => false
  | _ :: afterColon =>
      match u.takeWhile (fun c => c ≠ ':') with
      | [] => false
      | c0 :: schemeRest =>
          isAsciiAlpha c0 && schemeRest.all schemeChar &&
            (if specialSchemes.contains
                ((c0 :: schemeRest).map lowerChar) then
              !((afterColon.dropWhile (fun c => c = '/')).takeWhile
                  (fun c => c ≠ '/' && c ≠ '?' && c ≠ '#' && c ≠ ':')).isEmpty
            else true)

/-- `isValidTicketUrl` (index.ts, lines 158-172): falsy URLs, placeholder
domains, the bare paths `"#"`/`"/"`, and unparsable URLs are invalid. -/
def isValidTicketUrl (url : Option Str) : Bool :=
  match url with
  | none => false
  | some u =>
      if u.isEmpty then false
      else if containsSub (str "example.com") (u.map lowerChar) then false
      else if containsSub (str "id-preview--") (u.map lowerChar) then false
      else if containsSub (str "lovable.app") (u.map lowerChar) then false
      else if containsSub (str "localhost") (u.map lowerChar) then false
      else if u.map lowerChar = str "#" || u.map lowerChar = str "/" then false
      else urlParseOk u

/-- The C5 rejection condition written as the spec states it (after
amendment): the URL is missing/empty, unparsable, one of the placeholder
paths `"#"`/`"/"`, or contains a placeholder-domain marker. -/
def ticketUrlRejectedSpec (url : Option Str) : Bool :=
  match url with
  | none => true
  | some u =>
      u.isEmpty || !urlParseOk u ||
        (u.map lowerChar = str "#") || (u.map lowerChar = str "/") ||
        containsSub (str "example.com") (u.map lowerChar) ||
        containsSub (str "id-preview--") (u.map lowerChar) ||
        containsSub (str "lovable.app") (u.map lowerChar) ||
        containsSub (str "localhost") (u.map lowerChar)

-- scrapeSource result mapping (index.ts, lines 255-275) ----------------------

/-- One entry of the extraction backend's `events` array (all fields may be
absent). -/
structure RawEvent where
  artist : Option Str
  venue : Option Str
  date : Option Str
  ticket_url : Option Str
  ticket_sale_date : Option Str
  tickets_available : Option Bool
  image_url : Option Str
deriving DecidableEq, Repr

/-- The `.map` body of `scrapeSource`: defaults, venue normalization, ticket
URL validation (nulling on rejection).  `now` stands for
`new Date().toISOString()`. -/
def toCandidate (now src url cat : Str) (c : RawEvent) : ScrapedConcert :=
  { artist := jsOrDflt c.artist (str "Unknown")
    venue := normalizeVenueName (jsOrDflt c.venue src)
    date := jsOrDflt c.date now
    ticket_url := if isValidTicketUrl c.ticket_url then c.ticket_url else none
    ticket_sale_date := jsOrNull c.ticket_sale_date
    tickets_available := c.tickets_available.getD false
    image_url := jsOrNull c.image_url
    event_type := cat
    source := src
    source_url := url }

/-- The `.map(...).filter(...)` tail of `scrapeSource`: map every extracted
event to a candidate, then drop candidates that match no Stockholm keyword
unless the source itself does. -/
def processEvents (now src url cat : Str) (events : List RawEvent) :
    List ScrapedConcert :=
  (events.map (toCandidate now src url cat)).filter
    (fun c => isStockholmVenue c.venue || isStockholmVenue src)

-- Batch scheduler (index.ts, lines 9-14 and 282-302) -------------------------

/-- One task of a batch: its wall-clock duration (in the same units as the
budget) and the candidates its `fn()` resolves with (a task that throws is a
task with no results, mirroring the swallowed `catch`). -/
structure BatchTask where
  cost : Nat
  results : List ScrapedConcert
deriving Repr

/-- Why the task loop ended: it consumed the whole task list, or the
time-budget check failed before some task. -/
inductive StopReason
  | Completed
  | TimeExhausted
deriving DecidableEq, Repr

/-- `scrapeBatch`: before each task check `hasTimeBudget()` (elapsed strictly
below the budget); on failure stop, keeping the results already collected.
Otherwise wait `delayMs` (except before the first task), run the task, and
append its results.  `now` is the elapsed time at loop entry. -/
def scrapeBatch (budget delayMs : Nat) :
    Bool → Nat → List BatchTask → List ScrapedConcert × StopReason
  | _, _, [] => ([], StopReason.Completed)
  | notFirst, now, t :: rest =>
      if now < budget then
        (t.results ++ (scrapeBatch budget delayMs true
            (now + (if notFirst then delayMs else 0) + t.cost) rest).1,
          (scrapeBatch budget delayMs true
            (now + (if notFirst then delayMs else 0) + t.cost) rest).2)
      else ([], StopReason.TimeExhausted)

-- Earlier pipeline variant (V2): AI retry loop and credits flag --------------

/-- One response of the AI gateway, as seen by one attempt of the retry loop:
parsed events on HTTP 200, or a 429 / 402 / other failure status. -/
inductive AiResp
  | ok (events : List RawEvent)
  | rateLimited
  | quotaExhausted
  | otherError
deriving DecidableEq, Repr

/-- Outcome of the retry loop for the surrounding code. -/
inductive AiResult
  | success (events : List RawEvent)
  | failure
  | quota
deriving DecidableEq, Repr

/-- Observable behaviour of the retry loop: how many AI calls were issued,
which backoff delays were awaited (in order), and the result. -/
structure AiOutcome where
  calls : Nat
  delays : List Nat
  result : AiResult
deriving DecidableEq, Repr

/-- The `for (let attempt = 0; attempt < 3; attempt++)` AI retry loop of the
V2 `scrapeSource`: before each retry wait `attempt * 10000` ms; break on
success; continue on 429; return immediately (flagging quota) on 402; return
empty on any other error.  If all three attempts are rate-limited the
response has no `choices` and the loop ends in failure.  `script` is the
oracle of responses per attempt index. -/
def aiLoopAux (script : List AiResp) :
    Nat → Nat → List Nat → Nat → AiOutcome
  | 0, _, delays, calls => ⟨calls, delays, AiResult.failure⟩
  | remaining + 1, attempt, delays, calls =>
      let delays' := if attempt = 0 then delays else delays ++ [attempt * 10000]
      match script.getD attempt AiResp.otherError with
      | AiResp.ok es => ⟨calls + 1, delays', AiResult.success es⟩
      | AiResp.rateLimited =>
          aiLoopAux script remaining (attempt + 1) delays' (calls + 1)
      | AiResp.quotaExhausted => ⟨calls + 1, delays', AiResult.quota⟩
      | AiResp.otherError => ⟨calls + 1, delays', AiResult.failure⟩

def aiRetryLoop (script : List AiResp) : AiOutcome :=
  aiLoopAux script 3 0 [] 0

/-- One V2 scrape task: whether the page fetch produced usable markdown
(fetch error, empty markdown and the "Inga evenemang hittades" sentinel all
collapse to `false`), the AI response oracle, the source parameters, and the
task's wall-clock duration. -/
structure TaskV2 where
  hasContent : Bool
  aiScript : List AiResp
  src : Str
  url : Str
  cat : Str
  now : Str
  cost : Nat
deriving Repr

/-- The `.map` body of the V2 `scrapeSource` (no venue normalization and no
geographic filter in this variant). -/
def toConcertV2 (t : TaskV2) (c : RawEvent) : ScrapedConcert :=
  { artist := jsOrDflt c.artist (str "Unknown")
    venue := jsOrDflt c.venue t.src
    date := jsOrDflt c.date t.now
    ticket_url := jsOrNull c.ticket_url
    ticket_sale_date := jsOrNull c.ticket_sale_date
    tickets_available := c.tickets_available.getD false
    image_url := jsOrNull c.image_url
    event_type := t.cat
    source := t.src
    source_url := t.url }

/-- The V2 `scrapeSource`: return empty on missing content; return empty
without any AI call when `aiCreditsExhausted` is already set or the AI key is
missing; otherwise run the retry loop.  Result: (candidates, AI calls issued,
new value of the `aiCreditsExhausted` flag). -/
def scrapeSourceV2 (keyPresent flag : Bool) (t : TaskV2) :
    List ScrapedConcert × Nat × Bool :=
  if t.hasContent = false then ([], 0, flag)
  else if flag then ([], 0, flag)
  else if keyPresent = false then ([], 0, flag)
  else
    match aiRetryLoop t.aiScript with
    | ⟨calls, _, AiResult.success es⟩ => (es.map (toConcertV2 t), calls, flag)
    | ⟨calls, _, AiResult.quota⟩ => ([], calls, true)
    | ⟨calls, _, AiResult.failure⟩ => ([], calls, flag)

/-- The V2 `scrapeBatch` loop: before each task check the time budget, then
the `aiCreditsExhausted` flag (break on either, keeping collected results),
wait 5s between tasks, and run the task.  Result: (collected candidates,
total AI calls issued, final flag). -/
def scrapeBatchV2 (keyPresent : Bool) (budget delayMs : Nat) :
    Bool → Nat → Bool → List TaskV2 → List ScrapedConcert × Nat × Bool
  | _, _, flag, [] => ([], 0, flag)
  | notFirst, now, flag, t :: rest =>
      if now < budget then
        match flag with
        | true => ([], 0, true)
        | false =>
            ((scrapeSourceV2 keyPresent false t).1 ++
                (scrapeBatchV2 keyPresent budget delayMs true
                  (now + (if notFirst then delayMs else 0) + t.cost)
                  (scrapeSourceV2 keyPresent false t).2.2 rest).1,
              (scrapeSourceV2 keyPresent false t).2.1 +
                (scrapeBatchV2 keyPresent budget delayMs true
                  (now + (if notFirst then delayMs else 0) + t.cost)
                  (scrapeSourceV2 keyPresent false t).2.2 rest).2.1,
              (scrapeBatchV2 keyPresent budget delayMs true
                (now + (if notFirst then delayMs else 0) + t.cost)
                (scrapeSourceV2 keyPresent false t).2.2 rest).2.2)
      else ([], 0, flag)

/-- One iteration of the V2 `deduplicateConcerts` loop: replace the stored
entry when the newcomer adds an image, adds a ticket URL, or has a shorter
artist name; the replacement spreads `existing` then `c` and merges both URL
fields with JS `||` favouring the newcomer. -/
def dedupStepV2 (dOnly : Str → Str) (seen : List (Str × ScrapedConcert))
    (c : ScrapedConcert) : List (Str × ScrapedConcert) :=
  match getAssoc (concertKey dOnly c) seen with
  | none => setAssoc (concertKey dOnly c) c seen
  | some existing =>
      if (truthy existing.image_url = false ∧ truthy c.image_url = true) ∨
          (truthy existing.ticket_url = false ∧ truthy c.ticket_url = true) ∨
          c.artist.length < existing.artist.length then
        setAssoc (concertKey dOnly c)
          { c with
              image_url := jsOr c.image_url existing.image_url,
              ticket_url := jsOr c.ticket_url existing.ticket_url } seen
      else seen

def deduplicateConcertsV2 (dOnly : Str → Str)
    (concerts : List ScrapedConcert) : List ScrapedConcert :=
  (concerts.foldl (dedupStepV2 dOnly) []).map Prod.snd

/-- The rows the V2 handler's `upsertBatch` hands to the store for one
sub-batch: exactly the deduplicated batch results (this variant has no
deletion guard). -/
def persistedRowsV2 (dOnly : Str → Str)
    (batchResults : List ScrapedConcert) : List ScrapedConcert :=
  deduplicateConcertsV2 dOnly batchResults

-- Trigger body parsing (index.ts handler, lines 366-375) ---------------------

/-- The parseable JSON bodies of the scrape trigger (absent fields are
`none`; `batch`/`page` restricted to the numbers the handler meaningfully
consumes). -/
structure TriggerBody where
  batch : Option Nat
  chain : Option Bool
  page : Option Nat
deriving DecidableEq, Repr

/-- The handler's body parsing: defaults `batch=1`, `chain=false`, `page=1`;
a parse failure (no/unparsable JSON body, modelled as `none`) sets
`chain := true`; a truthy `batch`/`page` overrides the default, and `chain`
is set only by a truthy `chain` field. -/
def parseTrigger (body : Option TriggerBody) : Nat × Bool × Nat :=
  match body with
  | none => (1, true, 1)
  | some b =>
      ( (match b.batch with
          | some n => if n ≠ 0 then n else 1
          | none => 1)
      , (match b.chain with
          | some true => true
          | _ => false)
      , (match b.page with
          | some n => if n ≠ 0 then n else 1
          | none => 1) )

-- Concrete sample data used by the witness theorems -------------------------

/-- Identity stand-in for the host `dateOnly` helper, used to instantiate the
`dOnly` parameter in concrete evaluations. -/
def dateId : Str → Str := fun s => s

def sampleConcertA : ScrapedConcert :=
  { artist := str "First Aid Kit"
    venue := str "Cirkus"
    date := str "2026-05-01"
    ticket_url := some (str "https://tix.se/1")
    ticket_sale_date := none
    tickets_available := false
    image_url := none
    event_type := str "concert"
    source := str "Cirkus"
    source_url := str "https://cirkus.se" }

def sampleConcertB : ScrapedConcert :=
  { artist := str "First Aid Kit"
    venue := str "Cirkus"
    date := str "2026-05-01"
    ticket_url := none
    ticket_sale_date := none
    tickets_available := false
    image_url := some (str "https://img.se/fak.jpg")
    event_type := str "concert"
    source := str "Live Nation"
    source_url := str "https://livenation.se" }

def sampleDeletion : DeletionRecord :=
  { artist := str "First Aid Kit"
    venue := str "Cirkus"
    date := str "2026-05-01" }

def sampleRawEvent : RawEvent :=
  { artist := some (str "Kent")
    venue := some (str "Avicii Arena")
    date := some (str "2026-06-01")
    ticket_url := none
    ticket_sale_date := none
    tickets_available := some true
    image_url := none }

/-- Candidate outside Stockholm (geographic filter test input). -/
def o2Event : RawEvent :=
  { artist := some (str "Coldplay")
    venue := some (str "O2 Arena, London")
    date := some (str "2026-07-01")
    ticket_url := none
    ticket_sale_date := none
    tickets_available := none
    image_url := none }

/-- Candidate in Stockholm with a city suffix (geographic filter test
input). -/
def aviciiEvent : RawEvent :=
  { artist := some (str "Kent")
    venue := some (str "Avicii Arena, Stockholm")
    date := some (str "2026-07-02")
    ticket_url := none
    ticket_sale_date := none
    tickets_available := none
    image_url := none }

def sampleTaskQuota : TaskV2 :=
  { hasContent := true
    aiScript := [AiResp.quotaExhausted]
    src := str "Cirkus"
    url := str "https://cirkus.se"
    cat := str "concert"
    now := str "2026-01-01"
    cost := 1 }

def sampleTaskOk : TaskV2 :=
  { hasContent := true
    aiScript := [AiResp.ok [sampleRawEvent]]
    src := str "Gröna Lund"
    url := str "https://gronalund.com"
    cat := str "concert"
    now := str "2026-01-01"
    cost := 1 }

end Sthlm

namespace Sthlm

-- Key facts about the normalized alphabet ------------------------------------

theorem mem_normalize_isKeyChar {s : Str} {c : Char} (h : c ∈ normalize s) :
    isKeyChar c = true :=
  (List.mem_filter.mp h).2

theorem isKeyChar_cases {c : Char} (h : isKeyChar c = true) :
    ('a' ≤ c ∧ c ≤ 'z') ∨ ('0' ≤ c ∧ c ≤ '9') ∨ c = 'å' ∨ c = 'ä' ∨ c = 'ö' := by
  have h' := h
  simp only [isKeyChar, Bool.or_eq_true, Bool.and_eq_true,
    decide_eq_true_eq] at h'
  tauto

theorem lowerChar_of_isKeyChar {c : Char} (h : isKeyChar c = true) :
    lowerChar c = c := by
  rcases isKeyChar_cases h with ⟨h1, h2⟩ | ⟨h1, h2⟩ | rfl | rfl | rfl
  · unfold lowerChar
    have hA : ¬('A' ≤ c ∧ c ≤ 'Z') := by
      rintro ⟨_, hz⟩
      exact absurd (le_trans h1 hz) (by decide)
    rw [if_neg hA]
    have h3 : c ≠ 'Å' := by rintro rfl; exact absurd h2 (by decide)
    have h4 : c ≠ 'Ä' := by rintro rfl; exact absurd h2 (by decide)
    have h5 : c ≠ 'Ö' := by rintro rfl; exact absurd h2 (by decide)
    simp [h3, h4, h5]
  · unfold lowerChar
    have hA : ¬('A' ≤ c ∧ c ≤ 'Z') := by
      rintro ⟨ha, _⟩
      exact absurd (le_trans ha h2) (by decide)
    rw [if_neg hA]
    have h3 : c ≠ 'Å' := by rintro rfl; exact absurd h2 (by decide)
    have h4 : c ≠ 'Ä' := by rintro rfl; exact absurd h2 (by decide)
    have h5 : c ≠ 'Ö' := by rintro rfl; exact absurd h2 (by decide)
    simp [h3, h4, h5]
  · decide
  · decide
  · decide

theorem keyChar_not_artistSep {c : Char} (h : isKeyChar c = true) :
    artistSep c = false := by
  rcases isKeyChar_cases h with ⟨h1, h2⟩ | ⟨h1, h2⟩ | rfl | rfl | rfl
  · simp only [artistSep, Bool.or_eq_false_iff, decide_eq_false_iff_not]
    refine ⟨⟨⟨⟨?_, ?_⟩, ?_⟩, ?_⟩, ?_⟩ <;> rintro rfl <;>
      first
        | exact absurd h1 (by decide)
        | exact absurd h2 (by decide)
  · simp only [artistSep, Bool.or_eq_false_iff, decide_eq_false_iff_not]
    refine ⟨⟨⟨⟨?_, ?_⟩, ?_⟩, ?_⟩, ?_⟩ <;> rintro rfl <;>
      first
        | exact absurd h1 (by decide)
        | exact absurd h2 (by decide)
  · decide
  · decide
  · decide

theorem keyChar_not_venueSep {c : Char} (h : isKeyChar c = true) :
    venueSep c = false := by
  rcases isKeyChar_cases h with ⟨h1, h2⟩ | ⟨h1, h2⟩ | rfl | rfl | rfl
  · simp only [venueSep, Bool.or_eq_false_iff, decide_eq_false_iff_not]
    refine ⟨⟨⟨?_, ?_⟩, ?_⟩, ?_⟩ <;> rintro rfl <;>
      first
        | exact absurd h1 (by decide)
        | exact absurd h2 (by decide)
  · simp only [venueSep, Bool.or_eq_false_iff, decide_eq_false_iff_not]
    refine ⟨⟨⟨?_, ?_⟩, ?_⟩, ?_⟩ <;> rintro rfl <;>
      first
        | exact absurd h1 (by decide)
        | exact absurd h2 (by decide)
  · decide
  · decide
  · decide

theorem keyChar_not_ws {c : Char} (h : isKeyChar c = true) :
    isWs c = false := by
  rcases isKeyChar_cases h with ⟨h1, h2⟩ | ⟨h1, h2⟩ | rfl | rfl | rfl
  · simp only [isWs, Bool.or_eq_false_iff, decide_eq_false_iff_not]
    refine ⟨⟨⟨?_, ?_⟩, ?_⟩, ?_⟩ <;> rintro rfl <;>
      first
        | exact absurd h1 (by decide)
        | exact absurd h2 (by decide)
  · simp only [isWs, Bool.or_eq_false_iff, decide_eq_false_iff_not]
    refine ⟨⟨⟨?_, ?_⟩, ?_⟩, ?_⟩ <;> rintro rfl <;>
      first
        | exact absurd h1 (by decide)
        | exact absurd h2 (by decide)
  · decide
  · decide
  · decide

/-- A string all of whose characters lie in the key alphabet is fixed by the
lowercase-and-filter stage. -/
theorem normalize_of_allKeyChar {s : Str} (h : ∀ c ∈ s, isKeyChar c = true) :
    normalize s = s := by
  unfold normalize
  rw [List.map_congr_left (fun c hc => lowerChar_of_isKeyChar (h c hc))]
  simp only [List.map_id']
  exact List.filter_eq_self.mpr h

theorem takeUntil_of_none {sep : Char → Bool} {s : Str}
    (h : ∀ c ∈ s, sep c = false) : takeUntil sep s = s := by
  unfold takeUntil
  refine List.takeWhile_eq_self_iff.mpr (fun c hc => ?_)
  simp [h c hc]

theorem trimStr_of_noWs {s : Str} (h : ∀ c ∈ s, isWs c = false) :
    trimStr s = s := by
  unfold trimStr
  have h1 : s.dropWhile isWs = s := by
    cases s with
    | nil => rfl
    | cons a l =>
      rw [List.dropWhile_cons, if_neg]
      simp [h a (List.mem_cons_self a l)]
  rw [h1]
  have h2 : s.reverse.dropWhile isWs = s.reverse := by
    cases hrev : s.reverse with
    | nil => rfl
    | cons a l =>
      rw [List.dropWhile_cons, if_neg]
      have : a ∈ s.reverse := by rw [hrev]; exact List.mem_cons_self a l
      simp [h a (List.mem_reverse.mp this)]
  rw [h2, List.reverse_reverse]

theorem normalize_idem_aux (s : Str) :
    normalize (normalize s) = normalize s :=
  normalize_of_allKeyChar (fun _ hc => mem_normalize_isKeyChar hc)

theorem normalizeArtist_idem_aux (s : Str) :
    normalizeArtist (normalizeArtist s) = normalizeArtist s := by
  have hall : ∀ c ∈ normalizeArtist s, isKeyChar c = true :=
    fun _ hc => mem_normalize_isKeyChar hc
  generalize hg : normalizeArtist s = t at hall ⊢
  show normalizeArtist t = t
  unfold normalizeArtist
  rw [takeUntil_of_none (fun c hc => keyChar_not_artistSep (hall c hc)),
    trimStr_of_noWs (fun c hc => keyChar_not_ws (hall c hc))]
  exact normalize_of_allKeyChar hall

theorem normalizeVenueKey_idem_aux (s : Str) :
    normalizeVenueKey (normalizeVenueKey s) = normalizeVenueKey s := by
  have hall : ∀ c ∈ normalizeVenueKey s, isKeyChar c = true :=
    fun _ hc => mem_normalize_isKeyChar hc
  generalize hg : normalizeVenueKey s = t at hall ⊢
  show normalizeVenueKey t = t
  unfold normalizeVenueKey
  rw [takeUntil_of_none (fun c hc => keyChar_not_venueSep (hall c hc)),
    trimStr_of_noWs (fun c hc => keyChar_not_ws (hall c hc))]
  exact normalize_of_allKeyChar hall

-- Truthiness and score lemmas -------------------------------------------------

theorem truthy_jsOr (a b : Option Str) :
    truthy (jsOr a b) = (truthy a || truthy b) := by
  cases h : truthy a
  · simp [jsOr, h]
  · simp [jsOr, h]

theorem score_le_two_of_no_ticket {c : ScrapedConcert}
    (h : truthy c.ticket_url = false) : score c ≤ 2 := by
  simp only [score, h, Bool.false_eq_true, if_false]
  split_ifs <;> omega

theorem two_le_score_of_ticket {c : ScrapedConcert}
    (h : truthy c.ticket_url = true) : 2 ≤ score c := by
  simp only [score, h, if_true]
  split_ifs <;> omega

theorem truthy_ticket_of_score_gt {e c : ScrapedConcert}
    (he : truthy e.ticket_url = true) (h : score e < score c) :
    truthy c.ticket_url = true := by
  by_contra hc
  have hc' : truthy c.ticket_url = false := Bool.eq_false_iff.mpr hc
  have h1 := two_le_score_of_ticket he
  have h2 := score_le_two_of_no_ticket hc'
  omega

-- Association list lemmas -----------------------------------------------------

theorem setAssoc_of_get_none {k : Str} {v : ScrapedConcert}
    {l : List (Str × ScrapedConcert)} (h : getAssoc k l = none) :
    setAssoc k v l = l ++ [(k, v)] := by
  induction l with
  | nil => rfl
  | cons p rest ih =>
    obtain ⟨k', v'⟩ := p
    unfold getAssoc at h
    unfold setAssoc
    by_cases hk : k' = k
    · simp [hk] at h
    · rw [if_neg hk] at h ⊢
      simp [ih h]

theorem getAssoc_none_iff {k : Str} {l : List (Str × ScrapedConcert)} :
    getAssoc k l = none ↔ k ∉ l.map Prod.fst := by
  induction l with
  | nil => simp [getAssoc]
  | cons p rest ih =>
    obtain ⟨k', v'⟩ := p
    unfold getAssoc
    by_cases hk : k' = k
    · simp [hk]
    · simp [hk, ih, Ne.symm hk]

theorem getAssoc_mem {k : Str} {v : ScrapedConcert}
    {l : List (Str × ScrapedConcert)} (h : getAssoc k l = some v) :
    (k, v) ∈ l := by
  induction l with
  | nil => simp [getAssoc] at h
  | cons p rest ih =>
    obtain ⟨k', v'⟩ := p
    unfold getAssoc at h
    by_cases hk : k' = k
    · rw [if_pos hk] at h
      subst hk
      simp at h
      simp [h]
    · rw [if_neg hk] at h
      exact List.mem_cons_of_mem _ (ih h)

theorem setAssoc_keys_of_get_some {k : Str} {v v' : ScrapedConcert}
    {l : List (Str × ScrapedConcert)} (h : getAssoc k l = some v') :
    (setAssoc k v l).map Prod.fst = l.map Prod.fst := by
  induction l with
  | nil => simp [getAssoc] at h
  | cons p rest ih =>
    obtain ⟨k', v''⟩ := p
    unfold getAssoc at h
    unfold setAssoc
    by_cases hk : k' = k
    · rw [if_pos hk]
      simp [hk]
    · rw [if_neg hk] at h ⊢
      simp [ih h]

theorem mem_setAssoc {k : Str} {v : ScrapedConcert} {p : Str × ScrapedConcert}
    {l : List (Str × ScrapedConcert)} (h : p ∈ setAssoc k v l) :
    p ∈ l ∨ p = (k, v) := by
  induction l with
  | nil => simp [setAssoc] at h; simp [h]
  | cons q rest ih =>
    obtain ⟨k', v'⟩ := q
    unfold setAssoc at h
    by_cases hk : k' = k
    · rw [if_pos hk] at h
      rcases List.mem_cons.mp h with h' | h'
      · right; exact h'
      · left; exact List.mem_cons_of_mem _ h'
    · rw [if_neg hk] at h
      rcases List.mem_cons.mp h with h' | h'
      · left; exact h' ▸ List.mem_cons_self _ _
      · rcases ih h' with h'' | h''
        · left; exact List.mem_cons_of_mem _ h''
        · right; exact h''

theorem getAssoc_setAssoc_self {k : Str} {v : ScrapedConcert}
    {l : List (Str × ScrapedConcert)} :
    getAssoc k (setAssoc k v l) = some v := by
  induction l with
  | nil => simp [setAssoc, getAssoc]
  | cons p rest ih =>
    obtain ⟨k', v'⟩ := p
    unfold setAssoc
    by_cases hk : k' = k
    · rw [if_pos hk]
      simp [getAssoc]
    · rw [if_neg hk]
      unfold getAssoc
      rw [if_neg hk]
      exact ih

theorem getAssoc_setAssoc_ne {k k' : Str} {v : ScrapedConcert}
    {l : List (Str × ScrapedConcert)} (h : k ≠ k') :
    getAssoc k' (setAssoc k v l) = getAssoc k' l := by
  induction l with
  | nil => simp [setAssoc, getAssoc, h]
  | cons p rest ih =>
    obtain ⟨k'', v''⟩ := p
    unfold setAssoc
    by_cases hk : k'' = k
    · rw [if_pos hk]
      unfold getAssoc
      rw [if_neg h, if_neg (hk ▸ h : k'' ≠ k')]
    · rw [if_neg hk]
      unfold getAssoc
      by_cases hk2 : k'' = k'
      · rw [if_pos hk2, if_pos hk2]
      · rw [if_neg hk2, if_neg hk2]
        exact ih

-- Dedup map invariant ---------------------------------------------------------

theorem WFseen_nil (dOnly : Str → Str) : WFseen dOnly [] :=
  ⟨List.nodup_nil, by intro p hp; simp at hp⟩

theorem WFseen_dedupStep {dOnly : Str → Str}
    {l : List (Str × ScrapedConcert)} (h : WFseen dOnly l)
    (c : ScrapedConcert) : WFseen dOnly (dedupStep dOnly l c) := by
  obtain ⟨hnd, hkeys⟩ := h
  unfold dedupStep
  split
  · rename_i hget
    rw [setAssoc_of_get_none hget]
    constructor
    · rw [List.map_append]
      simp only [List.map_cons, List.map_nil]
      rw [List.nodup_append]
      refine ⟨hnd, List.nodup_singleton _, ?_⟩
      intro a ha hb
      simp at hb
      subst hb
      exact (getAssoc_none_iff.mp hget) ha
    · intro p hp
      rcases List.mem_append.mp hp with h' | h'
      · exact hkeys p h'
      · simp at h'
        subst h'
        rfl
  · rename_i existing hget
    split_ifs
    · constructor
      · rw [setAssoc_keys_of_get_some hget]
        exact hnd
      · intro p hp
        rcases mem_setAssoc hp with h' | h'
        · exact hkeys p h'
        · subst h'
          rfl
    · constructor
      · rw [setAssoc_keys_of_get_some hget]
        exact hnd
      · intro p hp
        rcases mem_setAssoc hp with h' | h'
        · exact hkeys p h'
        · subst h'
          have : concertKey dOnly existing = concertKey dOnly c :=
            hkeys _ (getAssoc_mem hget)
          simpa [concertKey] using this

theorem WFseen_foldl {dOnly : Str → Str} {l : List (Str × ScrapedConcert)}
    (h : WFseen dOnly l) (cs : List ScrapedConcert) :
    WFseen dOnly (cs.foldl (dedupStep dOnly) l) := by
  induction cs generalizing l with
  | nil => exact h
  | cons c rest ih => exact ih (WFseen_dedupStep h c)

theorem pairwise_of_WFseen {dOnly : Str → Str}
    {l : List (Str × ScrapedConcert)} (h : WFseen dOnly l) :
    (l.map Prod.snd).Pairwise
      (fun a b => concertKey dOnly a ≠ concertKey dOnly b) := by
  obtain ⟨hnd, hkeys⟩ := h
  induction l with
  | nil => simp
  | cons p rest ih =>
    obtain ⟨k, v⟩ := p
    simp only [List.map_cons] at hnd ⊢
    rw [List.nodup_cons] at hnd
    refine List.Pairwise.cons ?_
      (ih hnd.2 (fun q hq => hkeys q (List.mem_cons_of_mem _ hq)))
    intro b hb
    rcases List.mem_map.mp hb with ⟨q, hq, rfl⟩
    have h1 : concertKey dOnly v = k := hkeys (k, v) (List.mem_cons_self _ _)
    have h2 : concertKey dOnly q.2 = q.1 := hkeys q (List.mem_cons_of_mem _ hq)
    rw [h1, h2]
    intro hEq
    exact hnd.1 (hEq ▸ List.mem_map.mpr ⟨q, hq, rfl⟩)

-- Field preservation through the dedup fold ----------------------------------

theorem ticket_preserved_step {dOnly : Str → Str}
    {l : List (Str × ScrapedConcert)} {c : ScrapedConcert} {k : Str}
    (h : (∃ v, getAssoc k l = some v ∧ truthy v.ticket_url = true) ∨
      (concertKey dOnly c = k ∧ truthy c.ticket_url = true)) :
    ∃ v, getAssoc k (dedupStep dOnly l c) = some v ∧
      truthy v.ticket_url = true := by
  by_cases hk : concertKey dOnly c = k
  · subst hk
    unfold dedupStep
    split
    · rename_i hget
      rcases h with ⟨v, hv, _⟩ | ⟨_, ht⟩
      · rw [hget] at hv; exact absurd hv (by simp)
      · exact ⟨c, getAssoc_setAssoc_self, ht⟩
    · rename_i existing hget
      have hex : (∃ v, getAssoc (concertKey dOnly c) l = some v ∧
          truthy v.ticket_url = true) →
          truthy existing.ticket_url = true := by
        rintro ⟨v, hv, htv⟩
        rw [hget] at hv
        exact (Option.some.inj hv) ▸ htv
      split_ifs with hsc
      · refine ⟨_, getAssoc_setAssoc_self, ?_⟩
        show truthy c.ticket_url = true
        rcases h with hL | ⟨_, ht⟩
        · exact truthy_ticket_of_score_gt (hex hL) hsc
        · exact ht
      · refine ⟨_, getAssoc_setAssoc_self, ?_⟩
        show truthy (jsOr existing.ticket_url c.ticket_url) = true
        rw [truthy_jsOr]
        rcases h with hL | ⟨_, ht⟩
        · rw [hex hL]; rfl
        · rw [ht]; simp
  · have hup : ∀ v', getAssoc k (setAssoc (concertKey dOnly c) v' l) =
        getAssoc k l := fun v' => getAssoc_setAssoc_ne hk
    rcases h with ⟨v, hv, htv⟩ | ⟨hkc, _⟩
    · unfold dedupStep
      split
      · exact ⟨v, (hup _).trans hv, htv⟩
      · split_ifs
        · exact ⟨v, (hup _).trans hv, htv⟩
        · exact ⟨v, (hup _).trans hv, htv⟩
    · exact absurd hkc hk

theorem image_preserved_step {dOnly : Str → Str}
    {l : List (Str × ScrapedConcert)} {c : ScrapedConcert} {k : Str}
    (h : (∃ v, getAssoc k l = some v ∧ truthy v.image_url = true) ∨
      (concertKey dOnly c = k ∧ truthy c.image_url = true)) :
    ∃ v, getAssoc k (dedupStep dOnly l c) = some v ∧
      truthy v.image_url = true := by
  by_cases hk : concertKey dOnly c = k
  · subst hk
    unfold dedupStep
    split
    · rename_i hget
      rcases h with ⟨v, hv, _⟩ | ⟨_, ht⟩
      · rw [hget] at hv; exact absurd hv (by simp)
      · exact ⟨c, getAssoc_setAssoc_self, ht⟩
    · rename_i existing hget
      have hex : (∃ v, getAssoc (concertKey dOnly c) l = some v ∧
          truthy v.image_url = true) →
          truthy existing.image_url = true := by
        rintro ⟨v, hv, htv⟩
        rw [hget] at hv
        exact (Option.some.inj hv) ▸ htv
      split_ifs with hsc
      · refine ⟨_, getAssoc_setAssoc_self, ?_⟩
        show truthy (jsOr c.image_url existing.image_url) = true
        rw [truthy_jsOr]
        rcases h with hL | ⟨_, ht⟩
        · rw [hex hL]; simp
        · rw [ht]; rfl
      · refine ⟨_, getAssoc_setAssoc_self, ?_⟩
        show truthy (jsOr existing.image_url c.image_url) = true
        rw [truthy_jsOr]
        rcases h with hL | ⟨_, ht⟩
        · rw [hex hL]; rfl
        · rw [ht]; simp
  · have hup : ∀ v', getAssoc k (setAssoc (concertKey dOnly c) v' l) =
        getAssoc k l := fun v' => getAssoc_setAssoc_ne hk
    rcases h with ⟨v, hv, htv⟩ | ⟨hkc, _⟩
    · unfold dedupStep
      split
      · exact ⟨v, (hup _).trans hv, htv⟩
      · split_ifs
        · exact ⟨v, (hup _).trans hv, htv⟩
        · exact ⟨v, (hup _).trans hv, htv⟩
    · exact absurd hkc hk

theorem ticket_preserved_foldl {dOnly : Str → Str}
    (cs : List ScrapedConcert) (l : List (Str × ScrapedConcert)) (k : Str)
    (h : (∃ v, getAssoc k l = some v ∧ truthy v.ticket_url = true) ∨
      (∃ c ∈ cs, concertKey dOnly c = k ∧ truthy c.ticket_url = true)) :
    ∃ v, getAssoc k (cs.foldl (dedupStep dOnly) l) = some v ∧
      truthy v.ticket_url = true := by
  induction cs generalizing l with
  | nil =>
    rcases h with hL | ⟨c, hc, _⟩
    · exact hL
    · simp at hc
  | cons c rest ih =>
    rcases h with hL | ⟨c', hc', hk, ht⟩
    · exact ih _ (Or.inl (ticket_preserved_step (Or.inl hL)))
    · rcases List.mem_cons.mp hc' with rfl | hmem
      · exact ih _ (Or.inl (ticket_preserved_step (Or.inr ⟨hk, ht⟩)))
      · exact ih _ (Or.inr ⟨c', hmem, hk, ht⟩)

theorem image_preserved_foldl {dOnly : Str → Str}
    (cs : List ScrapedConcert) (l : List (Str × ScrapedConcert)) (k : Str)
    (h : (∃ v, getAssoc k l = some v ∧ truthy v.image_url = true) ∨
      (∃ c ∈ cs, concertKey dOnly c = k ∧ truthy c.image_url = true)) :
    ∃ v, getAssoc k (cs.foldl (dedupStep dOnly) l) = some v ∧
      truthy v.image_url = true := by
  induction cs generalizing l with
  | nil =>
    rcases h with hL | ⟨c, hc, _⟩
    · exact hL
    · simp at hc
  | cons c rest ih =>
    rcases h with hL | ⟨c', hc', hk, ht⟩
    · exact ih _ (Or.inl (image_preserved_step (Or.inl hL)))
    · rcases List.mem_cons.mp hc' with rfl | hmem
      · exact ih _ (Or.inl (image_preserved_step (Or.inr ⟨hk, ht⟩)))
      · exact ih _ (Or.inr ⟨c', hmem, hk, ht⟩)

end Sthlm

open Sthlm

/-- C7: Natural-key normalization is idempotent: applying `normalize`,
`normalizeArtist` or `normalizeVenueKey` twice gives the same result as
applying it once, so deduplication keys are stable under re-normalization. -/
theorem c7_normalization_idempotent :
    ∀ s : Str, normalize (normalize s) = normalize s ∧
      normalizeArtist (normalizeArtist s) = normalizeArtist s ∧
      normalizeVenueKey (normalizeVenueKey s) = normalizeVenueKey s :=
  fun s => ⟨normalize_idem_aux s, normalizeArtist_idem_aux s,
    normalizeVenueKey_idem_aux s⟩

/-- C8: for every input sequence and every date helper, the output of
`deduplicateConcerts` has pairwise distinct natural keys — at most one record
per (normalized artist, normalized venue, date-only) key. -/
theorem c8_dedup_unique_keys :
    ∀ (dOnly : Str → Str) (cs : List ScrapedConcert),
      (deduplicateConcerts dOnly cs).Pairwise
        (fun a b => concertKey dOnly a ≠ concertKey dOnly b) :=
  fun dOnly cs => pairwise_of_WFseen (WFseen_foldl (WFseen_nil dOnly) cs)

theorem dedup_pair_ticket_aux (dOnly : Str → Str) (c1 c2 : ScrapedConcert)
    (U : Str) (hkey : concertKey dOnly c1 = concertKey dOnly c2)
    (h1 : c1.ticket_url = some U) (hU : U ≠ []) (h2 : c2.ticket_url = none) :
    (deduplicateConcerts dOnly [c1, c2]).map (fun r => r.ticket_url) =
        [some U] ∧
      (deduplicateConcerts dOnly [c2, c1]).map (fun r => r.ticket_url) =
        [some U] := by
  have htU : truthy (some U) = true := by
    cases U with
    | nil => exact absurd rfl hU
    | cons a t => rfl
  have ht1 : truthy c1.ticket_url = true := by rw [h1]; exact htU
  have ht2 : truthy c2.ticket_url = false := by rw [h2]; rfl
  have hns : ¬ score c1 < score c2 := by
    have hx := two_le_score_of_ticket ht1
    have hy := score_le_two_of_no_ticket ht2
    omega
  have hJ1 : jsOr c1.ticket_url c2.ticket_url = some U := by
    rw [h1, h2]
    simp [jsOr, htU]
  have hJ2 : jsOr c2.ticket_url c1.ticket_url = some U := by
    rw [h1, h2]
    simp [jsOr, truthy]
  constructor
  · have e0 : dedupStep dOnly [] c1 = [(concertKey dOnly c1, c1)] := rfl
    have hget : getAssoc (concertKey dOnly c2) [(concertKey dOnly c1, c1)] =
        some c1 := by
      unfold getAssoc
      rw [if_pos hkey]
    show ((([c1, c2].foldl (dedupStep dOnly) []).map Prod.snd).map
      (fun r => r.ticket_url)) = [some U]
    simp only [List.foldl_cons, List.foldl_nil]
    rw [e0]
    unfold dedupStep
    split
    · rename_i hnone
      rw [hget] at hnone
      cases hnone
    · rename_i existing hsome
      rw [hget] at hsome
      rw [show existing = c1 from (Option.some.inj hsome).symm]
      rw [if_neg hns]
      unfold setAssoc
      rw [if_pos hkey]
      simp only [List.map_cons, List.map_nil]
      rw [hJ1]
  · have e0 : dedupStep dOnly [] c2 = [(concertKey dOnly c2, c2)] := rfl
    have hget : getAssoc (concertKey dOnly c1) [(concertKey dOnly c2, c2)] =
        some c2 := by
      unfold getAssoc
      rw [if_pos hkey.symm]
    show ((([c2, c1].foldl (dedupStep dOnly) []).map Prod.snd).map
      (fun r => r.ticket_url)) = [some U]
    simp only [List.foldl_cons, List.foldl_nil]
    rw [e0]
    unfold dedupStep
    split
    · rename_i hnone
      rw [hget] at hnone
      cases hnone
    · rename_i existing hsome
      rw [hget] at hsome
      rw [show existing = c2 from (Option.some.inj hsome).symm]
      split_ifs with hsc
      · unfold setAssoc
        rw [if_pos hkey.symm]
        simp only [List.map_cons, List.map_nil]
        rw [h1]
      · unfold setAssoc
        rw [if_pos hkey.symm]
        simp only [List.map_cons, List.map_nil]
        rw [hJ2]

/-- C1: the dedup merge is strictly additive.  For a pair of candidates with
the same natural key, one carrying `ticket_url = U` (populated) and the other
`null`, the single merged output record carries `ticket_url = U` in either
input order; and over arbitrary inputs a populated `ticket_url` or
`image_url` seen for a key always survives into that key's output record,
regardless of which side wins the completeness-score comparison. -/
theorem c1_dedup_merge_additive :
    (∀ (dOnly : Str → Str) (c1 c2 : ScrapedConcert) (U : Str),
        concertKey dOnly c1 = concertKey dOnly c2 →
        c1.ticket_url = some U → U ≠ [] → c2.ticket_url = none →
        (deduplicateConcerts dOnly [c1, c2]).map (fun r => r.ticket_url) =
            [some U] ∧
          (deduplicateConcerts dOnly [c2, c1]).map (fun r => r.ticket_url) =
            [some U]) ∧
    (∀ (dOnly : Str → Str) (cs : List ScrapedConcert) (k : Str),
        (∃ c ∈ cs, concertKey dOnly c = k ∧ truthy c.ticket_url = true) →
        ∃ r ∈ deduplicateConcerts dOnly cs,
          concertKey dOnly r = k ∧ truthy r.ticket_url = true) ∧
    (∀ (dOnly : Str → Str) (cs : List ScrapedConcert) (k : Str),
        (∃ c ∈ cs, concertKey dOnly c = k ∧ truthy c.image_url = true) →
        ∃ r ∈ deduplicateConcerts dOnly cs,
          concertKey dOnly r = k ∧ truthy r.image_url = true) := by
  refine ⟨dedup_pair_ticket_aux, ?_, ?_⟩
  · intro dOnly cs k h
    obtain ⟨v, hget, ht⟩ := ticket_preserved_foldl cs [] k (Or.inr h)
    have hWF := WFseen_foldl (WFseen_nil dOnly) cs
    have hmem := getAssoc_mem hget
    exact ⟨v, List.mem_map.mpr ⟨(k, v), hmem, rfl⟩, hWF.2 _ hmem, ht⟩
  · intro dOnly cs k h
    obtain ⟨v, hget, ht⟩ := image_preserved_foldl cs [] k (Or.inr h)
    have hWF := WFseen_foldl (WFseen_nil dOnly) cs
    have hmem := getAssoc_mem hget
    exact ⟨v, List.mem_map.mpr ⟨(k, v), hmem, rfl⟩, hWF.2 _ hmem, ht⟩

/-- Witness for C1 at a concrete pair sharing the key
`firstaidkit|cirkus|2026-05-01`. -/
theorem c1_dedup_merge_additive_witness :
    concertKey dateId sampleConcertA = concertKey dateId sampleConcertB ∧
    sampleConcertA.ticket_url = some (str "https://tix.se/1") ∧
    str "https://tix.se/1" ≠ [] ∧
    sampleConcertB.ticket_url = none ∧
    ((deduplicateConcerts dateId [sampleConcertA, sampleConcertB]).map
        (fun r => r.ticket_url) = [some (str "https://tix.se/1")] ∧
      (deduplicateConcerts dateId [sampleConcertB, sampleConcertA]).map
        (fun r => r.ticket_url) = [some (str "https://tix.se/1")]) :=
  ⟨by decide, by decide, by decide, by decide,
    c1_dedup_merge_additive.1 dateId sampleConcertA sampleConcertB _
      (by decide) (by decide) (by decide) (by decide)⟩

/-- C2: the deletion guard.  For every deletion record loaded at the start of
the run, no row whose natural key (computed with the same
`normalizeArtist`/`normalizeVenueKey`/`dateOnly` normalization) equals that
record's key is handed to the store by `upsertBatch`, whatever candidates were
scraped. -/
theorem c2_deletion_guard :
    ∀ (dOnly : Str → Str) (enrich : Str → Option Str)
      (deletions : List DeletionRecord) (concerts : List ScrapedConcert)
      (d : DeletionRecord), d ∈ deletions →
      ∀ r ∈ upsertRows dOnly enrich (deletions.map (deletionKey dOnly))
          concerts,
        concertKey dOnly r ≠ deletionKey dOnly d := by
  intro dOnly enrich deletions concerts d hd r hr hEq
  obtain ⟨c, hc, hcr⟩ := List.mem_filterMap.mp hr
  by_cases hk : concertKey dOnly c ∈ deletions.map (deletionKey dOnly)
  · rw [if_pos hk] at hcr
    cases hcr
  · rw [if_neg hk] at hcr
    obtain rfl : r = _ := (Option.some.inj hcr).symm
    apply hk
    have hkeq : concertKey dOnly ({ c with
        image_url :=
          if truthy c.image_url = false ∧ c.event_type ≠ str "comedy" then
            enrich c.artist
          else c.image_url } : ScrapedConcert) = concertKey dOnly c := rfl
    rw [hkeq] at hEq
    rw [hEq]
    exact List.mem_map.mpr ⟨d, hd, rfl⟩

/-- Witness for C2: with the sample deletion record loaded, every row upserted
from a re-scrape of the same concert misses its key. -/
theorem c2_deletion_guard_witness :
    sampleDeletion ∈ [sampleDeletion] ∧
    ∀ r ∈ upsertRows dateId (fun _ => none)
        (List.map (deletionKey dateId) [sampleDeletion]) [sampleConcertA],
      concertKey dateId r ≠ deletionKey dateId sampleDeletion :=
  ⟨List.mem_singleton.mpr rfl,
    c2_deletion_guard dateId (fun _ => none) [sampleDeletion]
      [sampleConcertA] sampleDeletion (List.mem_singleton.mpr rfl)⟩

/-- C4: the scheduler checks elapsed time against the budget before each
task; the executed tasks are always a prefix of the task list, all results
collected before the stop are returned, and the stop reason is
`TimeExhausted` exactly when the loop stopped before the end of the list.  In
particular, for a budget of 5 task-equivalents, zero inter-task delay and 10
tasks of unit cost, exactly the first 5 tasks execute and the stop reason is
`TimeExhausted`. -/
theorem c4_time_budget :
    (∀ (budget delayMs : Nat) (notFirst : Bool) (now : Nat)
        (ts : List BatchTask),
        ∃ k, k ≤ ts.length ∧
          (scrapeBatch budget delayMs notFirst now ts).1 =
            ((ts.take k).map BatchTask.results).flatten ∧
          ((scrapeBatch budget delayMs notFirst now ts).2 =
              StopReason.TimeExhausted ↔ k < ts.length)) ∧
    (∀ r0 r1 r2 r3 r4 r5 r6 r7 r8 r9 : List ScrapedConcert,
        scrapeBatch 5 0 false 0
            [⟨1, r0⟩, ⟨1, r1⟩, ⟨1, r2⟩, ⟨1, r3⟩, ⟨1, r4⟩,
              ⟨1, r5⟩, ⟨1, r6⟩, ⟨1, r7⟩, ⟨1, r8⟩, ⟨1, r9⟩] =
          (([r0, r1, r2, r3, r4] : List (List ScrapedConcert)).flatten,
            StopReason.TimeExhausted)) := by
  constructor
  · intro budget delayMs notFirst now ts
    induction ts generalizing notFirst now with
    | nil =>
      refine ⟨0, Nat.le_refl 0, rfl, ?_⟩
      simp [scrapeBatch]
    | cons t rest ih =>
      by_cases hb : now < budget
      · obtain ⟨k, hk, hfst, hiff⟩ :=
          ih true (now + (if notFirst then delayMs else 0) + t.cost)
      
        refine ⟨k + 1, Nat.succ_le_succ hk, ?_, ?_⟩
        · show (scrapeBatch budget delayMs notFirst now (t :: rest)).1 = _
          unfold scrapeBatch
          rw [if_pos hb]
          simp only [List.take_succ_cons, List.map_cons, List.flatten_cons]
          rw [hfst]
        · show (scrapeBatch budget delayMs notFirst now (t :: rest)).2 =
              StopReason.TimeExhausted ↔ k + 1 < (t :: rest).length
          unfold scrapeBatch
          rw [if_pos hb]
          simpa using hiff
      · refine ⟨0, Nat.zero_le _, ?_, ?_⟩
        · show (scrapeBatch budget delayMs notFirst now (t :: rest)).1 = _
          unfold scrapeBatch
          rw [if_neg hb]
          rfl
        · show (scrapeBatch budget delayMs notFirst now (t :: rest)).2 =
              StopReason.TimeExhausted ↔ 0 < (t :: rest).length
          unfold scrapeBatch
          rw [if_neg hb]
          simp
  · intro r0 r1 r2 r3 r4 r5 r6 r7 r8 r9
    simp [scrapeBatch, List.flatten]

/-- C10: a request whose body fails to parse runs the default batch 1 with
chaining enabled and default page 1; a parseable body without a `chain` field
leaves chaining disabled. -/
theorem c10_default_chain :
    parseTrigger none = (1, true, 1) ∧
    ∀ b : TriggerBody, b.chain = none → (parseTrigger (some b)).2.1 = false := by
  constructor
  · rfl
  · intro b hb
    simp [parseTrigger, hb]

/-- Witness for C10: a body carrying only `batch := 3` leaves chaining
disabled. -/
theorem c10_default_chain_witness :
    (TriggerBody.mk (some 3) none (some 2)).chain = none ∧
    (parseTrigger (some (TriggerBody.mk (some 3) none (some 2)))).2.1 =
      false :=
  ⟨rfl, c10_default_chain.2 (TriggerBody.mk (some 3) none (some 2)) rfl⟩

/-- C9: for a source whose own name matches no Stockholm keyword, a candidate
at "O2 Arena, London" is dropped entirely, while one at
"Avicii Arena, Stockholm" is kept with its venue normalized to
"Avicii Arena". -/
theorem c9_geographic_filter (src : Str) (h : isStockholmVenue src = false)
    (now url cat : Str) :
    processEvents now src url cat [o2Event] = [] ∧
    processEvents now src url cat [aviciiEvent] =
      [{ artist := str "Kent", venue := str "Avicii Arena",
         date := str "2026-07-02", ticket_url := none,
         ticket_sale_date := none, tickets_available := false,
         image_url := none, event_type := cat, source := src,
         source_url := url }] := by
  have hcand1 : toCandidate now src url cat o2Event =
      { artist := str "Coldplay", venue := str "O2 Arena, London",
        date := str "2026-07-01", ticket_url := none,
        ticket_sale_date := none, tickets_available := false,
        image_url := none, event_type := cat, source := src,
        source_url := url } := rfl
  have hcand2 : toCandidate now src url cat aviciiEvent =
      { artist := str "Kent", venue := str "Avicii Arena",
        date := str "2026-07-02", ticket_url := none,
        ticket_sale_date := none, tickets_available := false,
        image_url := none, event_type := cat, source := src,
        source_url := url } := rfl
  have hv1 : isStockholmVenue (str "O2 Arena, London") = false := by decide
  have hv2 : isStockholmVenue (str "Avicii Arena") = true := by decide
  constructor
  · simp only [processEvents, List.map_cons, List.map_nil]
    rw [hcand1]
    rw [List.filter_cons_of_neg]
    · rfl
    · show ¬(isStockholmVenue (str "O2 Arena, London") ||
        isStockholmVenue src) = true
      rw [hv1, h]
      simp
  · simp only [processEvents, List.map_cons, List.map_nil]
    rw [hcand2]
    rw [List.filter_cons_of_pos]
    · rfl
    · show (isStockholmVenue (str "Avicii Arena") ||
        isStockholmVenue src) = true
      rw [hv2]
      simp

/-- Witness for C9 at the non-Stockholm source name "Songkick". -/
theorem c9_geographic_filter_witness :
    isStockholmVenue (str "Songkick") = false ∧
    (processEvents (str "2026-01-01") (str "Songkick") (str "https://sk.com")
        (str "concert") [o2Event] = [] ∧
      processEvents (str "2026-01-01") (str "Songkick") (str "https://sk.com")
          (str "concert") [aviciiEvent] =
        [{ artist := str "Kent", venue := str "Avicii Arena",
           date := str "2026-07-02", ticket_url := none,
           ticket_sale_date := none, tickets_available := false,
           image_url := none, event_type := str "concert",
           source := str "Songkick",
           source_url := str "https://sk.com" }]) :=
  ⟨by decide,
    c9_geographic_filter (str "Songkick") (by decide) (str "2026-01-01")
      (str "https://sk.com") (str "concert")⟩

/-- C5 counterexample: the 9-character URL "https://a" is shorter than the
claimed 10-character minimum, yet `isValidTicketUrl` accepts it — the code
has no minimum-length threshold. -/
theorem c5_ticket_url_counterexample :
    isValidTicketUrl (some (str "https://a")) = true ∧
    (str "https://a").length < 10 := by decide

/-- C5 (amended): `isValidTicketUrl` rejects a URL exactly when it is
missing/empty, unparsable, one of the bare placeholder paths "#"/"/", or
contains one of the placeholder markers example.com / id-preview-- /
lovable.app / localhost (no minimum-length threshold); and for a rejected
URL only the `ticket_url` field is nulled — whether the candidate survives
depends only on the geographic filter. -/
theorem c5_ticket_url_validation :
    (∀ u : Option Str, isValidTicketUrl u = !ticketUrlRejectedSpec u) ∧
    (∀ (now src url cat : Str) (e : RawEvent),
        isValidTicketUrl e.ticket_url = false →
        (∀ c ∈ processEvents now src url cat [e], c.ticket_url = none) ∧
        (processEvents now src url cat [e] = [] ↔
          (isStockholmVenue (normalizeVenueName (jsOrDflt e.venue src)) ||
            isStockholmVenue src) = false)) := by
  constructor
  · intro u
    cases u with
    | none => rfl
    | some s =>
      simp only [isValidTicketUrl, ticketUrlRejectedSpec]
      split_ifs with h1 h2 h3 h4 h5 h6 <;> try simp_all
      rcases h6 with h6 | h6 <;> simp_all
  · intro now src url cat e hinv
    constructor
    · intro c hc
      simp only [processEvents, List.map_cons, List.map_nil] at hc
      have hc' := List.mem_filter.mp hc
      have hceq : c = toCandidate now src url cat e :=
        List.mem_singleton.mp hc'.1
      subst hceq
      show (if isValidTicketUrl e.ticket_url then e.ticket_url else none) =
        none
      rw [hinv]
      simp
    · simp only [processEvents, List.map_cons, List.map_nil]
      rw [List.filter_eq_nil_iff]
      constructor
      · intro hall
        have := hall (toCandidate now src url cat e)
          (List.mem_singleton.mpr rfl)
        simpa [Bool.not_eq_true] using this
      · intro hfalse c hc
        have hceq : c = toCandidate now src url cat e :=
          List.mem_singleton.mp hc
        subst hceq
        show ¬(isStockholmVenue (normalizeVenueName (jsOrDflt e.venue src)) ||
          isStockholmVenue src) = true
        rw [hfalse]
        simp

/-- Witness for C5 at a candidate with a missing ticket URL. -/
theorem c5_ticket_url_validation_witness :
    isValidTicketUrl aviciiEvent.ticket_url = false ∧
    ((∀ c ∈ processEvents (str "2026-01-01") (str "Songkick")
          (str "https://sk.com") (str "concert") [aviciiEvent],
        c.ticket_url = none) ∧
      (processEvents (str "2026-01-01") (str "Songkick")
          (str "https://sk.com") (str "concert") [aviciiEvent] = [] ↔
        (isStockholmVenue (normalizeVenueName
            (jsOrDflt aviciiEvent.venue (str "Songkick"))) ||
          isStockholmVenue (str "Songkick")) = false)) :=
  ⟨by decide,
    c5_ticket_url_validation.2 (str "2026-01-01") (str "Songkick")
      (str "https://sk.com") (str "concert") aviciiEvent (by decide)⟩

/-- C6: the AI retry loop issues at most 3 calls (2 retries); the awaited
backoff delays are the prefix of [10s, 20s] matching the number of retries
(10s before the first retry, 20s before the second); a retry only ever
follows a rate-limit response; and a quota-exhausted (402) response ends the
loop immediately with the quota result — no further retries. -/
theorem c6_ai_retry_policy :
    ∀ script : List AiResp,
      (aiRetryLoop script).calls ≤ 3 ∧
      (aiRetryLoop script).delays =
        ([10000, 20000] : List Nat).take ((aiRetryLoop script).calls - 1) ∧
      (∀ k, k + 1 < (aiRetryLoop script).calls →
        script.getD k AiResp.otherError = AiResp.rateLimited) ∧
      (∀ k, k < (aiRetryLoop script).calls →
        script.getD k AiResp.otherError = AiResp.quotaExhausted →
        (aiRetryLoop script).calls = k + 1 ∧
        (aiRetryLoop script).result = AiResult.quota) := by
  intro script
  cases h0 : script.getD 0 AiResp.otherError with
  | ok es =>
    have h0n := h0
    simp only [List.getD_eq_getElem?_getD] at h0n
    have hc : (aiRetryLoop script).calls = 1 := by
      simp [aiRetryLoop, aiLoopAux, h0n]
    have hd : (aiRetryLoop script).delays = [] := by
      simp [aiRetryLoop, aiLoopAux, h0n]
    have hr : (aiRetryLoop script).result = AiResult.success es := by
      simp [aiRetryLoop, aiLoopAux, h0n]
    refine ⟨by rw [hc]; try omega, by rw [hd, hc]; try rfl, ?_, ?_⟩
    · intro k hk
      rw [hc] at hk
      omega
    · intro k hk hq
      rw [hc] at hk
      have hk0 : k = 0 := by omega
      subst hk0
      rw [h0] at hq
      exact AiResp.noConfusion hq
  | quotaExhausted =>
    have h0n := h0
    simp only [List.getD_eq_getElem?_getD] at h0n
    have hc : (aiRetryLoop script).calls = 1 := by
      simp [aiRetryLoop, aiLoopAux, h0n]
    have hd : (aiRetryLoop script).delays = [] := by
      simp [aiRetryLoop, aiLoopAux, h0n]
    have hr : (aiRetryLoop script).result = AiResult.quota := by
      simp [aiRetryLoop, aiLoopAux, h0n]
    refine ⟨by rw [hc]; try omega, by rw [hd, hc]; try rfl, ?_, ?_⟩
    · intro k hk
      rw [hc] at hk
      omega
    · intro k hk hq
      rw [hc] at hk
      have hk0 : k = 0 := by omega
      subst hk0
      exact ⟨hc, hr⟩
  | otherError =>
    have h0n := h0
    simp only [List.getD_eq_getElem?_getD] at h0n
    have hc : (aiRetryLoop script).calls = 1 := by
      simp [aiRetryLoop, aiLoopAux, h0n]
    have hd : (aiRetryLoop script).delays = [] := by
      simp [aiRetryLoop, aiLoopAux, h0n]
    have hr : (aiRetryLoop script).result = AiResult.failure := by
      simp [aiRetryLoop, aiLoopAux, h0n]
    refine ⟨by rw [hc]; try omega, by rw [hd, hc]; try rfl, ?_, ?_⟩
    · intro k hk
      rw [hc] at hk
      omega
    · intro k hk hq
      rw [hc] at hk
      have hk0 : k = 0 := by omega
      subst hk0
      rw [h0] at hq
      exact AiResp.noConfusion hq
  | rateLimited =>
    have h0n := h0
    simp only [List.getD_eq_getElem?_getD] at h0n
    cases h1 : script.getD 1 AiResp.otherError with
    | ok es =>
      have h1n := h1
      simp only [List.getD_eq_getElem?_getD] at h1n
      have hc : (aiRetryLoop script).calls = 2 := by
        simp [aiRetryLoop, aiLoopAux, h0n, h1n]
      have hd : (aiRetryLoop script).delays = [10000] := by
        simp [aiRetryLoop, aiLoopAux, h0n, h1n]
      have hr : (aiRetryLoop script).result = AiResult.success es := by
        simp [aiRetryLoop, aiLoopAux, h0n, h1n]
      refine ⟨by rw [hc]; try omega, by rw [hd, hc]; try rfl, ?_, ?_⟩
      · intro k hk
        rw [hc] at hk
        have hk0 : k = 0 := by omega
        subst hk0
        exact h0
      · intro k hk hq
        rw [hc] at hk
        rcases (show k = 0 ∨ k = 1 by omega) with rfl | rfl
        · rw [h0] at hq
          exact AiResp.noConfusion hq
        · rw [h1] at hq
          exact AiResp.noConfusion hq
    | quotaExhausted =>
      have h1n := h1
      simp only [List.getD_eq_getElem?_getD] at h1n
      have hc : (aiRetryLoop script).calls = 2 := by
        simp [aiRetryLoop, aiLoopAux, h0n, h1n]
      have hd : (aiRetryLoop script).delays = [10000] := by
        simp [aiRetryLoop, aiLoopAux, h0n, h1n]
      have hr : (aiRetryLoop script).result = AiResult.quota := by
        simp [aiRetryLoop, aiLoopAux, h0n, h1n]
      refine ⟨by rw [hc]; try omega, by rw [hd, hc]; try rfl, ?_, ?_⟩
      · intro k hk
        rw [hc] at hk
        have hk0 : k = 0 := by omega
        subst hk0
        exact h0
      · intro k hk hq
        rw [hc] at hk
        rcases (show k = 0 ∨ k = 1 by omega) with rfl | rfl
        · rw [h0] at hq
          exact AiResp.noConfusion hq
        · exact ⟨hc, hr⟩
    | otherError =>
      have h1n := h1
      simp only [List.getD_eq_getElem?_getD] at h1n
      have hc : (aiRetryLoop script).calls = 2 := by
        simp [aiRetryLoop, aiLoopAux, h0n, h1n]
      have hd : (aiRetryLoop script).delays = [10000] := by
        simp [aiRetryLoop, aiLoopAux, h0n, h1n]
      have hr : (aiRetryLoop script).result = AiResult.failure := by
        simp [aiRetryLoop, aiLoopAux, h0n, h1n]
      refine ⟨by rw [hc]; try omega, by rw [hd, hc]; try rfl, ?_, ?_⟩
      · intro k hk
        rw [hc] at hk
        have hk0 : k = 0 := by omega
        subst hk0
        exact h0
      · intro k hk hq
        rw [hc] at hk
        rcases (show k = 0 ∨ k = 1 by omega) with rfl | rfl
        · rw [h0] at hq
          exact AiResp.noConfusion hq
        · rw [h1] at hq
          exact AiResp.noConfusion hq
    | rateLimited =>
      have h1n := h1
      simp only [List.getD_eq_getElem?_getD] at h1n
      cases h2 : script.getD 2 AiResp.otherError with
      | ok es =>
        have h2n := h2
        simp only [List.getD_eq_getElem?_getD] at h2n
        have hc : (aiRetryLoop script).calls = 3 := by
          simp [aiRetryLoop, aiLoopAux, h0n, h1n, h2n]
        have hd : (aiRetryLoop script).delays = [10000, 20000] := by
          simp [aiRetryLoop, aiLoopAux, h0n, h1n, h2n]
        have hr : (aiRetryLoop script).result = AiResult.success es := by
          simp [aiRetryLoop, aiLoopAux, h0n, h1n, h2n]
        refine ⟨by rw [hc]; try omega, by rw [hd, hc]; try rfl, ?_, ?_⟩
        · intro k hk
          rw [hc] at hk
          rcases (show k = 0 ∨ k = 1 by omega) with rfl | rfl
          · exact h0
          · exact h1
        · intro k hk hq
          rw [hc] at hk
          rcases (show k = 0 ∨ k = 1 ∨ k = 2 by omega) with rfl | rfl | rfl
          · rw [h0] at hq
            exact AiResp.noConfusion hq
          · rw [h1] at hq
            exact AiResp.noConfusion hq
          · rw [h2] at hq
            exact AiResp.noConfusion hq
      | rateLimited =>
        have h2n := h2
        simp only [List.getD_eq_getElem?_getD] at h2n
        have hc : (aiRetryLoop script).calls = 3 := by
          simp [aiRetryLoop, aiLoopAux, h0n, h1n, h2n]
        have hd : (aiRetryLoop script).delays = [10000, 20000] := by
          simp [aiRetryLoop, aiLoopAux, h0n, h1n, h2n]
        have hr : (aiRetryLoop script).result = AiResult.failure := by
          simp [aiRetryLoop, aiLoopAux, h0n, h1n, h2n]
        refine ⟨by rw [hc]; try omega, by rw [hd, hc]; try rfl, ?_, ?_⟩
        · intro k hk
          rw [hc] at hk
          rcases (show k = 0 ∨ k = 1 by omega) with rfl | rfl
          · exact h0
          · exact h1
        · intro k hk hq
          rw [hc] at hk
          rcases (show k = 0 ∨ k = 1 ∨ k = 2 by omega) with rfl | rfl | rfl
          · rw [h0] at hq
            exact AiResp.noConfusion hq
          · rw [h1] at hq
            exact AiResp.noConfusion hq
          · rw [h2] at hq
            exact AiResp.noConfusion hq
      | quotaExhausted =>
        have h2n := h2
        simp only [List.getD_eq_getElem?_getD] at h2n
        have hc : (aiRetryLoop script).calls = 3 := by
          simp [aiRetryLoop, aiLoopAux, h0n, h1n, h2n]
        have hd : (aiRetryLoop script).delays = [10000, 20000] := by
          simp [aiRetryLoop, aiLoopAux, h0n, h1n, h2n]
        have hr : (aiRetryLoop script).result = AiResult.quota := by
          simp [aiRetryLoop, aiLoopAux, h0n, h1n, h2n]
        refine ⟨by rw [hc]; try omega, by rw [hd, hc]; try rfl, ?_, ?_⟩
        · intro k hk
          rw [hc] at hk
          rcases (show k = 0 ∨ k = 1 by omega) with rfl | rfl
          · exact h0
          · exact h1
        · intro k hk hq
          rw [hc] at hk
          rcases (show k = 0 ∨ k = 1 ∨ k = 2 by omega) with rfl | rfl | rfl
          · rw [h0] at hq
            exact AiResp.noConfusion hq
          · rw [h1] at hq
            exact AiResp.noConfusion hq
          · exact ⟨hc, hr⟩
      | otherError =>
        have h2n := h2
        simp only [List.getD_eq_getElem?_getD] at h2n
        have hc : (aiRetryLoop script).calls = 3 := by
          simp [aiRetryLoop, aiLoopAux, h0n, h1n, h2n]
        have hd : (aiRetryLoop script).delays = [10000, 20000] := by
          simp [aiRetryLoop, aiLoopAux, h0n, h1n, h2n]
        have hr : (aiRetryLoop script).result = AiResult.failure := by
          simp [aiRetryLoop, aiLoopAux, h0n, h1n, h2n]
        refine ⟨by rw [hc]; try omega, by rw [hd, hc]; try rfl, ?_, ?_⟩
        · intro k hk
          rw [hc] at hk
          rcases (show k = 0 ∨ k = 1 by omega) with rfl | rfl
          · exact h0
          · exact h1
        · intro k hk hq
          rw [hc] at hk
          rcases (show k = 0 ∨ k = 1 ∨ k = 2 by omega) with rfl | rfl | rfl
          · rw [h0] at hq
            exact AiResp.noConfusion hq
          · rw [h1] at hq
            exact AiResp.noConfusion hq
          · rw [h2] at hq
            exact AiResp.noConfusion hq

theorem scrapeBatchV2_flag_true (kp : Bool) (b d : Nat) (nf : Bool)
    (now : Nat) (ts : List TaskV2) :
    scrapeBatchV2 kp b d nf now true ts = ([], 0, true) := by
  cases ts with
  | nil => rfl
  | cons t rest =>
    unfold scrapeBatchV2
    split_ifs <;> rfl

theorem scrapeBatchV2_append_of_flag {kp : Bool} {b d : Nat} {nf : Bool}
    {now : Nat} (ts1 ts2 : List TaskV2)
    (h : (scrapeBatchV2 kp b d nf now false ts1).2.2 = true) :
    scrapeBatchV2 kp b d nf now false (ts1 ++ ts2) =
      scrapeBatchV2 kp b d nf now false ts1 := by
  induction ts1 generalizing nf now with
  | nil => simp [scrapeBatchV2] at h
  | cons t rest ih =>
    rw [List.cons_append]
    by_cases hb : now < b
    · unfold scrapeBatchV2 at h ⊢
      simp only [if_pos hb] at h ⊢
      cases hf : (scrapeSourceV2 kp false t).2.2 with
      | true =>
        rw [scrapeBatchV2_flag_true, scrapeBatchV2_flag_true]
      | false =>
        rw [hf] at h
        have h' : (scrapeBatchV2 kp b d true
            (now + (if nf then d else 0) + t.cost) false rest).2.2 = true := by
          simpa using h
        rw [ih h']
    · unfold scrapeBatchV2 at h
      simp only [if_neg hb] at h
      simp at h

/-- C3: once the quota-exhausted signal (HTTP 402) has been observed inside a
run — the `aiCreditsExhausted` flag is `true` after some prefix of the task
list — running any further tasks changes nothing: the full run returns
exactly the prefix's results, issues zero additional AI calls, and the rows
deduplicated and persisted from the collected candidates are those of the
prefix. -/
theorem c3_quota_short_circuit :
    ∀ (kp : Bool) (b d : Nat) (nf : Bool) (now : Nat) (dOnly : Str → Str)
      (ts1 ts2 : List TaskV2),
      (scrapeBatchV2 kp b d nf now false ts1).2.2 = true →
      scrapeBatchV2 kp b d nf now false (ts1 ++ ts2) =
          scrapeBatchV2 kp b d nf now false ts1 ∧
        (scrapeBatchV2 kp b d nf now false (ts1 ++ ts2)).2.1 =
          (scrapeBatchV2 kp b d nf now false ts1).2.1 ∧
        persistedRowsV2 dOnly
          (scrapeBatchV2 kp b d nf now false (ts1 ++ ts2)).1 =
          persistedRowsV2 dOnly (scrapeBatchV2 kp b d nf now false ts1).1 := by
  intro kp b d nf now dOnly ts1 ts2 h
  have heq := scrapeBatchV2_append_of_flag ts1 ts2 h
  exact ⟨heq, by rw [heq], by rw [heq]⟩

/-- Witness for C3: a task hitting 402 followed by a task that would
otherwise succeed. -/
theorem c3_quota_short_circuit_witness :
    (scrapeBatchV2 true 100 5 false 0 false [sampleTaskQuota]).2.2 = true ∧
    (scrapeBatchV2 true 100 5 false 0 false
        ([sampleTaskQuota] ++ [sampleTaskOk]) =
        scrapeBatchV2 true 100 5 false 0 false [sampleTaskQuota] ∧
      (scrapeBatchV2 true 100 5 false 0 false
          ([sampleTaskQuota] ++ [sampleTaskOk])).2.1 =
        (scrapeBatchV2 true 100 5 false 0 false [sampleTaskQuota]).2.1 ∧
      persistedRowsV2 dateId
        (scrapeBatchV2 true 100 5 false 0 false
          ([sampleTaskQuota] ++ [sampleTaskOk])).1 =
        persistedRowsV2 dateId
          (scrapeBatchV2 true 100 5 false 0 false [sampleTaskQuota]).1) :=
  ⟨by decide,
    c3_quota_short_circuit true 100 5 false 0 dateId [sampleTaskQuota]
      [sampleTaskOk] (by decide)⟩

/-- Witness for C6: a rate-limited first attempt followed by 402 — two calls,
one 10s backoff, immediate quota stop. -/
theorem c6_ai_retry_policy_witness :
    (aiRetryLoop [AiResp.rateLimited, AiResp.quotaExhausted]).calls ≤ 3 ∧
    1 < (aiRetryLoop [AiResp.rateLimited, AiResp.quotaExhausted]).calls ∧
    [AiResp.rateLimited, AiResp.quotaExhausted].getD 1 AiResp.otherError =
      AiResp.quotaExhausted ∧
    ((aiRetryLoop [AiResp.rateLimited, AiResp.quotaExhausted]).calls = 2 ∧
      (aiRetryLoop [AiResp.rateLimited, AiResp.quotaExhausted]).result =
        AiResult.quota) :=
  ⟨(c6_ai_retry_policy [AiResp.rateLimited, AiResp.quotaExhausted]).1,
    by decide, by decide,
    (c6_ai_retry_policy [AiResp.rateLimited, AiResp.quotaExhausted]).2.2.2 1
      (by decide) (by decide)⟩
